import Mathlib

set_option maxHeartbeats 1000000
set_option linter.unusedVariables false

/-!
Verification of the compositing/harmonization pipeline in
`src/custom/manual_pipeline.py` (IntrinsicCompositing).

Image buffers are modelled as rectangular grids of exact rational pixel
values (one scalar channel; every operation of the pipeline acts
channelwise, so a 3-channel buffer is three parallel `Buffer`s).  The
gamma-exponentiation stage, which computes `x ** 2.2`, is modelled over the
real numbers.  Functions imported by `manual_pipeline.py` from sibling
modules whose source is not in this tree (`utils.get_bbox`,
`utils.composite_crop`, `utils.composite_depth`, chrislib's
`invert`/`uninvert`) are modelled from the specification and carry a
`Modelled from the spec:` doc comment.
-/

/-- A rectangular image buffer: `h` rows, `w` columns, pixel values indexed
by (row, column).  Values outside the rectangle are junk and never relied
upon. -/
structure Buffer (α : Type) where
  h : ℕ
  w : ℕ
  data : ℕ → ℕ → α

/-- The placement footprint: pixel `(i, j)` of the destination canvas lies
under a source patch of size `srcH × srcW` whose top-left corner sits at
`pos = (top, left)`. -/
def inFootprint (pos : ℕ × ℕ) (srcH srcW : ℕ) (i j : ℕ) : Prop :=
  pos.1 ≤ i ∧ i < pos.1 + srcH ∧ pos.2 ≤ j ∧ j < pos.2 + srcW

instance (pos : ℕ × ℕ) (srcH srcW i j : ℕ) :
    Decidable (inFootprint pos srcH srcW i j) := by
  unfold inFootprint
  infer_instance

/-- Modelled from the spec: `utils.composite_crop` is imported by
`manual_pipeline.py` but its source file is not part of this tree.  The
spec contract (§4.2) is
`new_buffer[p] = src_mask[p]·src_buffer[p] + (1−src_mask[p])·dst_buffer[p]`
for every pixel inside the placement footprint and
`new_buffer[p] = dst_buffer[p]` elsewhere; the output keeps the destination
canvas dimensions. -/
def composite_crop (dst : Buffer ℚ) (pos : ℕ × ℕ) (src mask : Buffer ℚ) :
    Buffer ℚ :=
  ⟨dst.h, dst.w, fun i j =>
    if inFootprint pos src.h src.w i j then
      mask.data (i - pos.1) (j - pos.2) * src.data (i - pos.1) (j - pos.2)
        + (1 - mask.data (i - pos.1) (j - pos.2)) * dst.data i j
    else dst.data i j⟩

/-- Modelled from the spec: `utils.composite_depth` is imported by
`manual_pipeline.py` but its source file is not part of this tree.  The
spec (§4.2) states that depth compositing is a direct value substitution
with the very same masked blend as every other buffer, with no
depth-ordering, occlusion, or value-adjustment logic. -/
def composite_depth (dst : Buffer ℚ) (pos : ℕ × ℕ) (src mask : Buffer ℚ) :
    Buffer ℚ :=
  ⟨dst.h, dst.w, fun i j =>
    if inFootprint pos src.h src.w i j then
      mask.data (i - pos.1) (j - pos.2) * src.data (i - pos.1) (j - pos.2)
        + (1 - mask.data (i - pos.1) (j - pos.2)) * dst.data i j
    else dst.data i j⟩

/-- Modelled from the spec: chrislib's `uninvert` (imported by
`manual_pipeline.py`; chrislib's source is not part of this tree).  The
spec (§4.3) gives the exact law `shading = 1/(1−inv_shading)`. -/
def uninvert {α : Type} [Field α] (x : α) : α := 1 / (1 - x)

/-- Modelled from the spec: chrislib's `invert`, the map that stores a
shading value in inverted form (§4.3: `1 − x` composed with reciprocal
semantics), i.e. the inverse of `uninvert`: `invert s = 1 − 1/s`. -/
def invert {α : Type} [Field α] (x : α) : α := 1 - 1 / x

/-- An all-zero canvas, as built by `np.zeros((bg_height, bg_width))` on
lines 141 and 147 of `manual_pipeline.py`. -/
def zerosBuf (h w : ℕ) : Buffer ℚ := ⟨h, w, fun _ _ => 0⟩

/-- A 4×4 constant-one buffer, used as the fully opaque mask and the
constant-1.0 foreground of the spec's 8×8 compositing scenario. -/
def onesBuf44 : Buffer ℚ := ⟨4, 4, fun _ _ => 1⟩

/-- Minimum of a list of naturals, `none` on the empty list. -/
def listMin : List ℕ → Option ℕ
  | [] => none
  | a :: l =>
    match listMin l with
    | none => some a
    | some b => some (min a b)

/-- Maximum of a list of naturals, `none` on the empty list. -/
def listMax : List ℕ → Option ℕ
  | [] => none
  | a :: l =>
    match listMax l with
    | none => some a
    | some b => some (max a b)

/-- Row `i` of the mask holds at least one non-zero entry
(`np.any(mask, axis=1)` at row `i`). -/
def rowHasNonzero (m : Buffer ℚ) (i : ℕ) : Bool :=
  (List.range m.w).any fun j => decide (m.data i j ≠ 0)

/-- Column `j` of the mask holds at least one non-zero entry
(`np.any(mask, axis=0)` at column `j`). -/
def colHasNonzero (m : Buffer ℚ) (j : ℕ) : Bool :=
  (List.range m.h).any fun i => decide (m.data i j ≠ 0)

/-- Indices of the rows holding a non-zero entry, in increasing order. -/
def nonzeroRows (m : Buffer ℚ) : List ℕ :=
  (List.range m.h).filter (rowHasNonzero m)

/-- Indices of the columns holding a non-zero entry, in increasing order. -/
def nonzeroCols (m : Buffer ℚ) : List ℕ :=
  (List.range m.w).filter (colHasNonzero m)

/-- Modelled from the spec: `utils.get_bbox` is imported by
`manual_pipeline.py` but its source file is not part of this tree.  The
spec (§3, §4.1) contracts `bbox(mask)` to return the four integers
`(row_min, row_max, col_min, col_max)` of the tightest axis-aligned
rectangle containing the non-zero mask values, and to report a
`DegenerateMask` error on an entirely zero mask. -/
def get_bbox (m : Buffer ℚ) : Except String (ℕ × ℕ × ℕ × ℕ) :=
  match listMin (nonzeroRows m), listMax (nonzeroRows m),
      listMin (nonzeroCols m), listMax (nonzeroCols m) with
  | some rmin, some rmax, some cmin, some cmax => .ok (rmin, rmax, cmin, cmax)
  | _, _, _, _ => .error "DegenerateMask"

/-- A 3×3 mask whose only non-zero pixel is at row 1, column 2. -/
def sampleMask : Buffer ℚ := ⟨3, 3, fun i j => if i = 1 ∧ j = 2 then 1 else 0⟩

/-- Python `int(x)` for the nonnegative rationals arising in the pipeline
(truncation toward zero agrees with the floor there). -/
def pyInt (x : ℚ) : ℕ := ⌊x⌋₊

/-- Lines 80–83 of `run_full_pipeline` (and, with the same formula, the
background resize of lines 62–65): `scale = T / max(H, W)`,
`(int(H * scale), int(W * scale))`, computed exactly over ℚ. -/
def cropRescaleDims (H W T : ℕ) : ℕ × ℕ :=
  (pyInt ((H : ℚ) * ((T : ℚ) / ((max H W : ℕ) : ℚ))),
   pyInt ((W : ℚ) * ((T : ℚ) / ((max H W : ℕ) : ℚ))))

/-- Lines 78–87 of `run_full_pipeline`: resize the cropped foreground
image and mask so the longer edge equals the target.  `resizeF` abstracts
`skimage.transform.resize`, whose resampling content is external to the
claims; only the requested output dimensions matter. -/
def cropAndRescale (resizeF : Buffer ℚ → ℕ → ℕ → Buffer ℚ)
    (image mask : Buffer ℚ) (T : ℕ) : Buffer ℚ × Buffer ℚ :=
  ((resizeF image (cropRescaleDims image.h image.w T).1
      (cropRescaleDims image.h image.w T).2),
   (resizeF mask (cropRescaleDims image.h image.w T).1
      (cropRescaleDims image.h image.w T).2))

/-- Module-level constant of `manual_pipeline.py`, line 289. -/
def MAX_EDGE_SIZE : ℕ := 1024

/-- The two sizing computations of `run_full_pipeline`: the background is
resized with the `max_edge_size` parameter (line 63), while the foreground
crop is rescaled with the module constant `MAX_EDGE_SIZE` (line 81). -/
def pipelineSizes (bgH0 bgW0 cropH cropW maxEdgeSize : ℕ) :
    (ℕ × ℕ) × (ℕ × ℕ) :=
  (cropRescaleDims bgH0 bgW0 maxEdgeSize,
   cropRescaleDims cropH cropW MAX_EDGE_SIZE)

/-- Lines 202–204 of `run_full_pipeline`: the common small resolution used
for the light-coefficient fit,
`(int(bg_height * (512.0 / max_dim)), int(bg_width * (512.0 / max_dim)))`. -/
def smallDims (bgH bgW : ℕ) : ℕ × ℕ :=
  (pyInt ((bgH : ℚ) * (((512 : ℕ) : ℚ) / ((max bgH bgW : ℕ) : ℚ))),
   pyInt ((bgW : ℚ) * (((512 : ℕ) : ℚ) / ((max bgH bgW : ℕ) : ℚ))))

/-- Lines 202–214 of `run_full_pipeline`: resample the background and its
inverse shading to the common small resolution, compute normals at that
same resolution, and assemble the three arguments passed to
`get_light_coeffs` (inverse shading, normals, guide image).  `resizeF`
abstracts `skimage.transform.resize` and `normalsF` abstracts
`get_omni_normals`. -/
def lightFitStage (resizeF : Buffer ℚ → ℕ → ℕ → Buffer ℚ)
    (normalsF : Buffer ℚ → Buffer ℚ) (bg_im im_inv_shading : Buffer ℚ) :
    Buffer ℚ × Buffer ℚ × Buffer ℚ :=
  (resizeF im_inv_shading (smallDims bg_im.h bg_im.w).1
      (smallDims bg_im.h bg_im.w).2,
   normalsF (resizeF bg_im (smallDims bg_im.h bg_im.w).1
      (smallDims bg_im.h bg_im.w).2),
   resizeF bg_im (smallDims bg_im.h bg_im.w).1 (smallDims bg_im.h bg_im.w).2)

/-- numpy slice assignment
`dst[top : top+src.h, left : left+src.w] = src` (lines 142–145 and 148–151
of `run_full_pipeline`), for nonnegative offsets.  The slice is clamped by
the destination's extents to per-axis lengths `min(src.h, dst.h − top)`
(0 past the edge), and numpy broadcasts the source into it: an axis
succeeds when the source extent matches the clamped slice extent or is 1
(a size-1 or size-0 source dimension broadcasts into the clamped, possibly
empty, slice — e.g. a 1×1 source at `top = dst.h` is a silent no-op).
Since the slice extent here is the source extent clamped, that amounts to
`top + src.h ≤ dst.h ∨ src.h ≤ 1` per axis; otherwise numpy raises a
broadcast `ValueError`.  On success only the in-canvas part of the
footprint is overwritten. -/
def setSlice (dst : Buffer ℚ) (top left : ℕ) (src : Buffer ℚ) :
    Except String (Buffer ℚ) :=
  if (top + src.h ≤ dst.h ∨ src.h ≤ 1) ∧ (left + src.w ≤ dst.w ∨ src.w ≤ 1)
  then
    .ok ⟨dst.h, dst.w, fun i j =>
      if inFootprint (top, left) src.h src.w i j then
        src.data (i - top) (j - left)
      else dst.data i j⟩
  else .error "could not broadcast input array"

/-- Lines 128–129 of `run_full_pipeline`:
`(int(cropped_height * fg_scale_relative), int(cropped_width * fg_scale_relative))`. -/
def fgScaledDims (croppedH croppedW : ℕ) (rel : ℚ) : ℕ × ℕ :=
  (pyInt ((croppedH : ℚ) * rel), pyInt ((croppedW : ℚ) * rel))

/-- Lines 136–137 of `run_full_pipeline`:
`(int(fg_top_left_pos[0] * bg_height), int(fg_top_left_pos[1] * bg_width))`. -/
def placementOffset (pos0 pos1 : ℚ) (bgH bgW : ℕ) : ℕ × ℕ :=
  (pyInt (pos0 * (bgH : ℚ)), pyInt (pos1 * (bgW : ℚ)))

/-- The outputs of step 6 of `run_full_pipeline`. -/
structure StageOut where
  top : ℕ
  left : ℕ
  fgFullMask : Buffer ℚ
  fgFullDepth : Buffer ℚ
  comp : Buffer ℚ
  compDepth : Buffer ℚ
  compInvShading : Buffer ℚ
  compNormals : Buffer ℚ

/-- Lines 130–134 of `run_full_pipeline`: one of the five foreground
buffers resized to the composite size
`(fg_scaled_height, fg_scaled_width)` computed from the crop dimensions
and `fg_scale_relative`. -/
def fgRescaledBuf (resizeF : Buffer ℚ → ℕ → ℕ → Buffer ℚ)
    (fg_im_crop b : Buffer ℚ) (relScale : ℚ) : Buffer ℚ :=
  resizeF b (fgScaledDims fg_im_crop.h fg_im_crop.w relScale).1
    (fgScaledDims fg_im_crop.h fg_im_crop.w relScale).2

/-- Step 6 of `run_full_pipeline` (lines 124–180): rescale the five
foreground buffers to the composite size, write the rescaled mask and
depth into zero full-canvas buffers (numpy slice assignment, which raises
when the footprint exceeds the canvas — the mask write on line 142 raises
first), then build the four composites — color, depth, inverse shading,
normals — all at the same `(top, left)` placement and with the same
rescaled mask.  `top` and `left` are the pixel offsets computed on lines
136–137 (see `placementOffset`); `resizeF` abstracts
`skimage.transform.resize`. -/
def compositeStage (resizeF : Buffer ℚ → ℕ → ℕ → Buffer ℚ)
    (bg_im im_depth im_inv_shading im_normals : Buffer ℚ)
    (fg_im_crop fg_mask_crop fg_im_depth fg_im_inv_shading
      fg_im_normals : Buffer ℚ)
    (relScale : ℚ) (top left bgH bgW : ℕ) : Except String StageOut :=
  match setSlice (zerosBuf bgH bgW) top left
      (fgRescaledBuf resizeF fg_im_crop fg_mask_crop relScale),
    setSlice (zerosBuf bgH bgW) top left
      (fgRescaledBuf resizeF fg_im_crop fg_im_depth relScale) with
  | .ok fg_full_mask, .ok fg_full_depth =>
    .ok
      { top := top
        left := left
        fgFullMask := fg_full_mask
        fgFullDepth := fg_full_depth
        comp := composite_crop bg_im (top, left)
          (fgRescaledBuf resizeF fg_im_crop fg_im_crop relScale)
          (fgRescaledBuf resizeF fg_im_crop fg_mask_crop relScale)
        compDepth := composite_depth im_depth (top, left)
          (fgRescaledBuf resizeF fg_im_crop fg_im_depth relScale)
          (fgRescaledBuf resizeF fg_im_crop fg_mask_crop relScale)
        compInvShading := composite_crop im_inv_shading (top, left)
          (fgRescaledBuf resizeF fg_im_crop fg_im_inv_shading relScale)
          (fgRescaledBuf resizeF fg_im_crop fg_mask_crop relScale)
        compNormals := composite_crop im_normals (top, left)
          (fgRescaledBuf resizeF fg_im_crop fg_im_normals relScale)
          (fgRescaledBuf resizeF fg_im_crop fg_mask_crop relScale) }
  | .error e, _ => .error e
  | _, .error e => .error e

/-- A resize function usable as a concrete instantiation of `resizeF`:
it returns the requested dimensions and samples the source at the
unchanged coordinates. -/
def idResize (b : Buffer ℚ) (hh ww : ℕ) : Buffer ℚ := ⟨hh, ww, b.data⟩

/-- A normals function usable as a concrete instantiation of `normalsF`:
dimension-preserving. -/
def idNormals (b : Buffer ℚ) : Buffer ℚ := b

/-- A 4×4 constant background buffer. -/
def bg4 : Buffer ℚ := ⟨4, 4, fun _ _ => 3⟩

/-- A 2×2 constant foreground buffer. -/
def fg2 : Buffer ℚ := ⟨2, 2, fun _ _ => 1⟩

/-- An 8×8 constant foreground buffer, larger than the 4×4 canvas. -/
def fg8 : Buffer ℚ := ⟨8, 8, fun _ _ => 1⟩

/-- A 1×1 constant foreground buffer, whose size-1 extents broadcast. -/
def fg1 : Buffer ℚ := ⟨1, 1, fun _ _ => 1⟩

/-- Lines 185–195 of `run_full_pipeline`, over ℝ: the external
harmonizer's gamma-encoded output is raised to the power 2.2
(`harmonize_albedo(...) ** 2.2`), the diagnostic `original_albedo` is
`(comp ** 2.2) / uninvert(comp_inv_shading)`, and the harmonized composite
is `comp_albedo_harmonized * uninvert(comp_inv_shading)`, all pixelwise. -/
noncomputable def harmonizeStage (harmOut comp compInvShading : Buffer ℝ) :
    Buffer ℝ × Buffer ℝ × Buffer ℝ :=
  (⟨harmOut.h, harmOut.w, fun i j => harmOut.data i j ^ (2.2 : ℝ)⟩,
   ⟨comp.h, comp.w, fun i j =>
      comp.data i j ^ (2.2 : ℝ) / uninvert (compInvShading.data i j)⟩,
   ⟨harmOut.h, harmOut.w, fun i j =>
      harmOut.data i j ^ (2.2 : ℝ) * uninvert (compInvShading.data i j)⟩)

/-- Claim C1: the compositor returns `src_mask[p]·src_buffer[p] +
(1−src_mask[p])·dst_buffer[p]` at every pixel inside the placement
footprint and `dst_buffer[p]` outside it; a zero mask returns the
destination exactly, and the 4×4 fully opaque mask placed at (2,2) on an
8×8 zero background with constant source 1.0 yields exactly 1.0 in rows
2–5/cols 2–5 and 0.0 elsewhere. -/
theorem composite_crop_spec (dst : Buffer ℚ) (pos : ℕ × ℕ)
    (src mask : Buffer ℚ) (i j : ℕ) :
    (inFootprint pos src.h src.w i j →
      (composite_crop dst pos src mask).data i j =
        mask.data (i - pos.1) (j - pos.2) * src.data (i - pos.1) (j - pos.2)
          + (1 - mask.data (i - pos.1) (j - pos.2)) * dst.data i j)
    ∧ (¬ inFootprint pos src.h src.w i j →
      (composite_crop dst pos src mask).data i j = dst.data i j)
    ∧ ((∀ a b, mask.data a b = 0) →
      (composite_crop dst pos src mask).data i j = dst.data i j)
    ∧ (∀ i' < 8, ∀ j' < 8,
      (composite_crop (zerosBuf 8 8) (2, 2) onesBuf44 onesBuf44).data i' j' =
        if 2 ≤ i' ∧ i' ≤ 5 ∧ 2 ≤ j' ∧ j' ≤ 5 then 1 else 0) := by
  refine ⟨fun hin => ?_, fun hout => ?_, fun hzero => ?_, ?_⟩
  · simp only [composite_crop, if_pos hin]
  · simp only [composite_crop, if_neg hout]
  · simp only [composite_crop]
    split
    · rw [hzero]
      ring
    · rfl
  · intro i' _ j' _
    simp only [composite_crop, onesBuf44, zerosBuf, inFootprint]
    norm_num
    split
    · rw [if_pos (by omega)]
    · rw [if_neg (by omega)]

theorem composite_crop_spec_witness :
    inFootprint (2, 2) onesBuf44.h onesBuf44.w 3 3
    ∧ (composite_crop (zerosBuf 8 8) (2, 2) onesBuf44 onesBuf44).data 3 3 =
      onesBuf44.data 1 1 * onesBuf44.data 1 1
        + (1 - onesBuf44.data 1 1) * (zerosBuf 8 8).data 3 3 :=
  ⟨by decide,
    (composite_crop_spec (zerosBuf 8 8) (2, 2) onesBuf44 onesBuf44 3 3).1
      (by decide)⟩

/-- Claim C3: depth compositing performs exactly the same masked blend as
the generic compositor: `composite_depth` agrees with `composite_crop`
in dimensions and at every pixel, for all destinations, placements,
sources and masks. -/
theorem composite_depth_eq_composite_crop (dst : Buffer ℚ) (pos : ℕ × ℕ)
    (src mask : Buffer ℚ) :
    (composite_depth dst pos src mask).h = (composite_crop dst pos src mask).h
    ∧ (composite_depth dst pos src mask).w =
      (composite_crop dst pos src mask).w
    ∧ ∀ i j, (composite_depth dst pos src mask).data i j =
      (composite_crop dst pos src mask).data i j :=
  ⟨rfl, rfl, fun _ _ => rfl⟩

theorem listMin_eq_none {l : List ℕ} (h : listMin l = none) : l = [] := by
  cases l with
  | nil => rfl
  | cons a l =>
    exfalso
    simp only [listMin] at h
    cases hx : listMin l <;> rw [hx] at h <;> simp at h

theorem listMax_eq_none {l : List ℕ} (h : listMax l = none) : l = [] := by
  cases l with
  | nil => rfl
  | cons a l =>
    exfalso
    simp only [listMax] at h
    cases hx : listMax l <;> rw [hx] at h <;> simp at h

theorem listMin_spec {l : List ℕ} {a : ℕ} (h : listMin l = some a) :
    a ∈ l ∧ ∀ b ∈ l, a ≤ b := by
  induction l generalizing a with
  | nil => simp [listMin] at h
  | cons x xs ih =>
    simp only [listMin] at h
    cases hx : listMin xs with
    | none =>
      rw [hx] at h
      simp only [Option.some.injEq] at h
      have hnil := listMin_eq_none hx
      subst hnil
      refine ⟨?_, ?_⟩
      · rw [← h]
        exact List.mem_singleton_self x
      · intro b hb
        rw [List.mem_singleton] at hb
        rw [hb, ← h]
    | some b =>
      rw [hx] at h
      simp only [Option.some.injEq] at h
      obtain ⟨hb, hall⟩ := ih hx
      subst h
      constructor
      · rcases le_total x b with hxb | hbx
        · rw [min_eq_left hxb]
          exact List.mem_cons_self x xs
        · rw [min_eq_right hbx]
          exact List.mem_cons_of_mem x hb
      · intro c hc
        rcases List.mem_cons.mp hc with rfl | hc
        · exact min_le_left _ _
        · exact le_trans (min_le_right _ _) (hall c hc)

theorem listMax_spec {l : List ℕ} {a : ℕ} (h : listMax l = some a) :
    a ∈ l ∧ ∀ b ∈ l, b ≤ a := by
  induction l generalizing a with
  | nil => simp [listMax] at h
  | cons x xs ih =>
    simp only [listMax] at h
    cases hx : listMax xs with
    | none =>
      rw [hx] at h
      simp only [Option.some.injEq] at h
      have hnil := listMax_eq_none hx
      subst hnil
      refine ⟨?_, ?_⟩
      · rw [← h]
        exact List.mem_singleton_self x
      · intro b hb
        rw [List.mem_singleton] at hb
        rw [hb, ← h]
    | some b =>
      rw [hx] at h
      simp only [Option.some.injEq] at h
      obtain ⟨hb, hall⟩ := ih hx
      subst h
      constructor
      · rcases le_total x b with hxb | hbx
        · rw [max_eq_right hxb]
          exact List.mem_cons_of_mem x hb
        · rw [max_eq_left hbx]
          exact List.mem_cons_self x xs
      · intro c hc
        rcases List.mem_cons.mp hc with rfl | hc
        · exact le_max_left _ _
        · exact le_trans (hall c hc) (le_max_right _ _)

theorem listMin_isSome {l : List ℕ} (h : l ≠ []) : ∃ a, listMin l = some a := by
  cases hx : listMin l with
  | none => exact absurd (listMin_eq_none hx) h
  | some a => exact ⟨a, rfl⟩

theorem listMax_isSome {l : List ℕ} (h : l ≠ []) : ∃ a, listMax l = some a := by
  cases hx : listMax l with
  | none => exact absurd (listMax_eq_none hx) h
  | some a => exact ⟨a, rfl⟩

theorem mem_nonzeroRows {m : Buffer ℚ} {i : ℕ} :
    i ∈ nonzeroRows m ↔ i < m.h ∧ ∃ j, j < m.w ∧ m.data i j ≠ 0 := by
  simp [nonzeroRows, rowHasNonzero, List.mem_filter, List.mem_range,
    List.any_eq_true]

theorem mem_nonzeroCols {m : Buffer ℚ} {j : ℕ} :
    j ∈ nonzeroCols m ↔ j < m.w ∧ ∃ i, i < m.h ∧ m.data i j ≠ 0 := by
  simp [nonzeroCols, colHasNonzero, List.mem_filter, List.mem_range,
    List.any_eq_true]

/-- Claim C4: an entirely zero mask makes `get_bbox` report the
`DegenerateMask` error rather than any box; a mask with at least one
non-zero pixel gets the minimal enclosing rectangle: it contains every
non-zero pixel, and each of the four bounds is attained by some non-zero
pixel. -/
theorem get_bbox_spec (m : Buffer ℚ) :
    ((∀ i, i < m.h → ∀ j, j < m.w → m.data i j = 0) →
      get_bbox m = .error "DegenerateMask")
    ∧ (∀ r c, r < m.h → c < m.w → m.data r c ≠ 0 →
      ∃ rmin rmax cmin cmax,
        get_bbox m = .ok (rmin, rmax, cmin, cmax)
        ∧ rmin ≤ r ∧ r ≤ rmax ∧ cmin ≤ c ∧ c ≤ cmax
        ∧ (∃ j, j < m.w ∧ m.data rmin j ≠ 0)
        ∧ (∃ j, j < m.w ∧ m.data rmax j ≠ 0)
        ∧ (∃ i, i < m.h ∧ m.data i cmin ≠ 0)
        ∧ (∃ i, i < m.h ∧ m.data i cmax ≠ 0)) := by
  constructor
  · intro hzero
    have hrows : nonzeroRows m = [] := by
      rw [List.eq_nil_iff_forall_not_mem]
      intro i hi
      obtain ⟨hih, j, hjw, hnz⟩ := mem_nonzeroRows.mp hi
      exact hnz (hzero i hih j hjw)
    simp [get_bbox, hrows, listMin]
  · intro r c hr hc hnz
    have hrmem : r ∈ nonzeroRows m := mem_nonzeroRows.mpr ⟨hr, c, hc, hnz⟩
    have hcmem : c ∈ nonzeroCols m := mem_nonzeroCols.mpr ⟨hc, r, hr, hnz⟩
    obtain ⟨rmin, hrmin⟩ := listMin_isSome (List.ne_nil_of_mem hrmem)
    obtain ⟨rmax, hrmax⟩ := listMax_isSome (List.ne_nil_of_mem hrmem)
    obtain ⟨cmin, hcmin⟩ := listMin_isSome (List.ne_nil_of_mem hcmem)
    obtain ⟨cmax, hcmax⟩ := listMax_isSome (List.ne_nil_of_mem hcmem)
    refine ⟨rmin, rmax, cmin, cmax, ?_, ?_, ?_, ?_, ?_, ?_, ?_, ?_, ?_⟩
    · simp [get_bbox, hrmin, hrmax, hcmin, hcmax]
    · exact (listMin_spec hrmin).2 r hrmem
    · exact (listMax_spec hrmax).2 r hrmem
    · exact (listMin_spec hcmin).2 c hcmem
    · exact (listMax_spec hcmax).2 c hcmem
    · exact (mem_nonzeroRows.mp (listMin_spec hrmin).1).2
    · exact (mem_nonzeroRows.mp (listMax_spec hrmax).1).2
    · exact (mem_nonzeroCols.mp (listMin_spec hcmin).1).2
    · exact (mem_nonzeroCols.mp (listMax_spec hcmax).1).2

theorem get_bbox_spec_witness :
    get_bbox (zerosBuf 3 3) = .error "DegenerateMask"
    ∧ ∃ rmin rmax cmin cmax,
      get_bbox sampleMask = .ok (rmin, rmax, cmin, cmax)
      ∧ rmin ≤ 1 ∧ 1 ≤ rmax ∧ cmin ≤ 2 ∧ 2 ≤ cmax
      ∧ (∃ j, j < sampleMask.w ∧ sampleMask.data rmin j ≠ 0)
      ∧ (∃ j, j < sampleMask.w ∧ sampleMask.data rmax j ≠ 0)
      ∧ (∃ i, i < sampleMask.h ∧ sampleMask.data i cmin ≠ 0)
      ∧ (∃ i, i < sampleMask.h ∧ sampleMask.data i cmax ≠ 0) :=
  ⟨(get_bbox_spec (zerosBuf 3 3)).1 (fun _ _ _ _ => rfl),
    (get_bbox_spec sampleMask).2 1 2 (by decide) (by decide) (by decide)⟩

theorem pyInt_nat_mul_div (H T M : ℕ) :
    pyInt ((H : ℚ) * ((T : ℚ) / (M : ℚ))) = H * T / M := by
  have hcast : (H : ℚ) * ((T : ℚ) / (M : ℚ)) = ((H * T : ℕ) : ℚ) / (M : ℚ) := by
    push_cast
    ring
  rw [pyInt, hcast, Nat.floor_div_nat, Nat.floor_natCast]

theorem cropRescaleDims_eq (H W T : ℕ) :
    cropRescaleDims H W T = (H * T / max H W, W * T / max H W) := by
  rw [cropRescaleDims, pyInt_nat_mul_div, pyInt_nat_mul_div]

theorem cropRescale_max_edge (H W T : ℕ) (hH : 0 < H) (hW : 0 < W) :
    max (H * T / max H W) (W * T / max H W) = T := by
  rcases le_total H W with h | h
  · rw [max_eq_right h]
    have h2 : H * T / W ≤ T := by
      calc H * T / W ≤ W * T / W :=
            Nat.div_le_div_right (Nat.mul_le_mul_right T h)
        _ = T := Nat.mul_div_cancel_left T hW
    rw [Nat.mul_div_cancel_left T hW]
    exact max_eq_right h2
  · rw [max_eq_left h]
    have h2 : W * T / H ≤ T := by
      calc W * T / H ≤ H * T / H :=
            Nat.div_le_div_right (Nat.mul_le_mul_right T h)
        _ = T := Nat.mul_div_cancel_left T hH
    rw [Nat.mul_div_cancel_left T hH]
    exact max_eq_left h2

/-- Claim C5: crop-and-rescale returns an image and a mask both of
dimensions `(int(H·T/max(H,W)), int(W·T/max(H,W)))`, whose longer edge
equals the target max edge `T`. -/
theorem cropAndRescale_spec (resizeF : Buffer ℚ → ℕ → ℕ → Buffer ℚ)
    (hres : ∀ b hh ww, (resizeF b hh ww).h = hh ∧ (resizeF b hh ww).w = ww)
    (image mask : Buffer ℚ) (T : ℕ) (hH : 0 < image.h) (hW : 0 < image.w) :
    (cropAndRescale resizeF image mask T).1.h
        = image.h * T / max image.h image.w
    ∧ (cropAndRescale resizeF image mask T).1.w
        = image.w * T / max image.h image.w
    ∧ (cropAndRescale resizeF image mask T).2.h
        = image.h * T / max image.h image.w
    ∧ (cropAndRescale resizeF image mask T).2.w
        = image.w * T / max image.h image.w
    ∧ max (cropAndRescale resizeF image mask T).1.h
        (cropAndRescale resizeF image mask T).1.w = T := by
  have hd := cropRescaleDims_eq image.h image.w T
  have h1 := hres image (cropRescaleDims image.h image.w T).1
    (cropRescaleDims image.h image.w T).2
  have h2 := hres mask (cropRescaleDims image.h image.w T).1
    (cropRescaleDims image.h image.w T).2
  have e1 : (cropAndRescale resizeF image mask T).1.h
      = image.h * T / max image.h image.w := by
    simp only [cropAndRescale]
    rw [h1.1, hd]
  have e2 : (cropAndRescale resizeF image mask T).1.w
      = image.w * T / max image.h image.w := by
    simp only [cropAndRescale]
    rw [h1.2, hd]
  have e3 : (cropAndRescale resizeF image mask T).2.h
      = image.h * T / max image.h image.w := by
    simp only [cropAndRescale]
    rw [h2.1, hd]
  have e4 : (cropAndRescale resizeF image mask T).2.w
      = image.w * T / max image.h image.w := by
    simp only [cropAndRescale]
    rw [h2.2, hd]
  refine ⟨e1, e2, e3, e4, ?_⟩
  rw [e1, e2]
  exact cropRescale_max_edge image.h image.w T hH hW

theorem cropAndRescale_spec_witness :
    (cropAndRescale idResize (⟨200, 400, fun _ _ => 0⟩ : Buffer ℚ)
      (⟨200, 400, fun _ _ => 0⟩ : Buffer ℚ) 100).1.h = 50
    ∧ (cropAndRescale idResize (⟨200, 400, fun _ _ => 0⟩ : Buffer ℚ)
      (⟨200, 400, fun _ _ => 0⟩ : Buffer ℚ) 100).1.w = 100 :=
  ⟨((cropAndRescale_spec idResize (fun _ _ _ => ⟨rfl, rfl⟩)
      ⟨200, 400, fun _ _ => 0⟩ ⟨200, 400, fun _ _ => 0⟩ 100
      (by norm_num) (by norm_num)).1).trans (by norm_num),
    ((cropAndRescale_spec idResize (fun _ _ _ => ⟨rfl, rfl⟩)
      ⟨200, 400, fun _ _ => 0⟩ ⟨200, 400, fun _ _ => 0⟩ 100
      (by norm_num) (by norm_num)).2.1).trans (by norm_num)⟩

theorem smallDims_eq (H W : ℕ) :
    smallDims H W = (H * 512 / max H W, W * 512 / max H W) := by
  rw [smallDims, pyInt_nat_mul_div, pyInt_nat_mul_div]

/-- Claim C6: before the light-coefficient fit, the background image, the
normals computed from its resampled version, and the resampled inverse
shading — the three buffers handed to `get_light_coeffs` — all share the
common small dimensions `(int(bg_height·512/max_dim), int(bg_width·512/max_dim))`,
whose longest edge equals 512. -/
theorem lightFitStage_spec (resizeF : Buffer ℚ → ℕ → ℕ → Buffer ℚ)
    (hres : ∀ b hh ww, (resizeF b hh ww).h = hh ∧ (resizeF b hh ww).w = ww)
    (normalsF : Buffer ℚ → Buffer ℚ)
    (hnorm : ∀ b, (normalsF b).h = b.h ∧ (normalsF b).w = b.w)
    (bg_im im_inv_shading : Buffer ℚ)
    (hH : 0 < bg_im.h) (hW : 0 < bg_im.w) :
    max (smallDims bg_im.h bg_im.w).1 (smallDims bg_im.h bg_im.w).2 = 512
    ∧ (lightFitStage resizeF normalsF bg_im im_inv_shading).1.h
        = (smallDims bg_im.h bg_im.w).1
    ∧ (lightFitStage resizeF normalsF bg_im im_inv_shading).1.w
        = (smallDims bg_im.h bg_im.w).2
    ∧ (lightFitStage resizeF normalsF bg_im im_inv_shading).2.1.h
        = (smallDims bg_im.h bg_im.w).1
    ∧ (lightFitStage resizeF normalsF bg_im im_inv_shading).2.1.w
        = (smallDims bg_im.h bg_im.w).2
    ∧ (lightFitStage resizeF normalsF bg_im im_inv_shading).2.2.h
        = (smallDims bg_im.h bg_im.w).1
    ∧ (lightFitStage resizeF normalsF bg_im im_inv_shading).2.2.w
        = (smallDims bg_im.h bg_im.w).2 := by
  have hbg := hres bg_im (smallDims bg_im.h bg_im.w).1
    (smallDims bg_im.h bg_im.w).2
  have hsh := hres im_inv_shading (smallDims bg_im.h bg_im.w).1
    (smallDims bg_im.h bg_im.w).2
  have hn := hnorm (resizeF bg_im (smallDims bg_im.h bg_im.w).1
    (smallDims bg_im.h bg_im.w).2)
  refine ⟨?_, hsh.1, hsh.2, ?_, ?_, hbg.1, hbg.2⟩
  · rw [smallDims_eq]
    exact cropRescale_max_edge bg_im.h bg_im.w 512 hH hW
  · exact hn.1.trans hbg.1
  · exact hn.2.trans hbg.2

theorem lightFitStage_spec_witness :
    max (smallDims bg4.h bg4.w).1 (smallDims bg4.h bg4.w).2 = 512
    ∧ (lightFitStage idResize idNormals bg4 bg4).1.h
        = (smallDims bg4.h bg4.w).1
    ∧ (lightFitStage idResize idNormals bg4 bg4).1.w
        = (smallDims bg4.h bg4.w).2
    ∧ (lightFitStage idResize idNormals bg4 bg4).2.1.h
        = (smallDims bg4.h bg4.w).1
    ∧ (lightFitStage idResize idNormals bg4 bg4).2.1.w
        = (smallDims bg4.h bg4.w).2
    ∧ (lightFitStage idResize idNormals bg4 bg4).2.2.h
        = (smallDims bg4.h bg4.w).1
    ∧ (lightFitStage idResize idNormals bg4 bg4).2.2.w
        = (smallDims bg4.h bg4.w).2 :=
  lightFitStage_spec idResize (fun _ _ _ => ⟨rfl, rfl⟩) idNormals
    (fun _ => ⟨rfl, rfl⟩) bg4 bg4 (by norm_num [bg4]) (by norm_num [bg4])

/-- Claim C10: the foreground crop's rescale target is the module constant
`MAX_EDGE_SIZE = 1024`, independent of the `max_edge_size` parameter: for
any parameter value the foreground sizing is unchanged and its longer edge
is 1024, while the background's longer edge equals the parameter. -/
theorem pipelineSizes_spec (bgH0 bgW0 cropH cropW p : ℕ)
    (h1 : 0 < bgH0) (h2 : 0 < bgW0) (h3 : 0 < cropH) (h4 : 0 < cropW) :
    (pipelineSizes bgH0 bgW0 cropH cropW p).2
        = (pipelineSizes bgH0 bgW0 cropH cropW 1024).2
    ∧ max (pipelineSizes bgH0 bgW0 cropH cropW p).2.1
        (pipelineSizes bgH0 bgW0 cropH cropW p).2.2 = 1024
    ∧ max (pipelineSizes bgH0 bgW0 cropH cropW p).1.1
        (pipelineSizes bgH0 bgW0 cropH cropW p).1.2 = p
    ∧ MAX_EDGE_SIZE = 1024 := by
  refine ⟨rfl, ?_, ?_, rfl⟩
  · show max (cropRescaleDims cropH cropW MAX_EDGE_SIZE).1
      (cropRescaleDims cropH cropW MAX_EDGE_SIZE).2 = 1024
    rw [cropRescaleDims_eq]
    exact cropRescale_max_edge cropH cropW 1024 h3 h4
  · show max (cropRescaleDims bgH0 bgW0 p).1 (cropRescaleDims bgH0 bgW0 p).2 = p
    rw [cropRescaleDims_eq]
    exact cropRescale_max_edge bgH0 bgW0 p h1 h2

theorem pipelineSizes_spec_witness :
    (pipelineSizes 100 50 10 20 512).2 = (pipelineSizes 100 50 10 20 1024).2
    ∧ max (pipelineSizes 100 50 10 20 512).2.1
        (pipelineSizes 100 50 10 20 512).2.2 = 1024
    ∧ max (pipelineSizes 100 50 10 20 512).1.1
        (pipelineSizes 100 50 10 20 512).1.2 = 512
    ∧ MAX_EDGE_SIZE = 1024 :=
  pipelineSizes_spec 100 50 10 20 512 (by norm_num) (by norm_num)
    (by norm_num) (by norm_num)

/-- Claim C7: the harmonized albedo is the external harmonizer's output
raised pixelwise to the power 2.2, and the harmonized composite is exactly
that linear harmonized albedo multiplied pixelwise by
`uninvert(composite inverse-shading)`. -/
theorem harmonizeStage_spec (harmOut comp compInvShading : Buffer ℝ)
    (i j : ℕ) :
    (harmonizeStage harmOut comp compInvShading).1.data i j
        = harmOut.data i j ^ (2.2 : ℝ)
    ∧ (harmonizeStage harmOut comp compInvShading).2.2.data i j
        = harmOut.data i j ^ (2.2 : ℝ)
          * uninvert (compInvShading.data i j)
    ∧ (harmonizeStage harmOut comp compInvShading).2.2.data i j
        = (harmonizeStage harmOut comp compInvShading).1.data i j
          * uninvert (compInvShading.data i j) :=
  ⟨rfl, rfl, rfl⟩

/-- Claim C8: for every x strictly inside (0,1), `uninvert (invert x) = x`
— exactly, over ℚ, hence a fortiori within floating-point tolerance —
where `uninvert y = 1/(1−y)`. -/
theorem uninvert_invert (x : ℚ) (h0 : 0 < x) (h1 : x < 1) :
    uninvert (invert x) = x := by
  have hx : x ≠ 0 := ne_of_gt h0
  rw [uninvert, invert, show (1 : ℚ) - (1 - 1 / x) = 1 / x by ring,
    one_div_one_div]

theorem uninvert_invert_witness :
    (0 : ℚ) < 1 / 2 ∧ (1 : ℚ) / 2 < 1
    ∧ uninvert (invert ((1 : ℚ) / 2)) = 1 / 2 :=
  ⟨by norm_num, by norm_num,
    uninvert_invert ((1 : ℚ) / 2) (by norm_num) (by norm_num)⟩

/-- Claim C2: when the composite stage succeeds, every composite buffer —
color, depth, inverse shading, normals — is built with the same placement
offset `(top, left)` and the same rescaled foreground mask, and all four
have identical spatial dimensions equal to the background canvas size
`(bgH, bgW)`. -/
theorem compositeStage_consistent (resizeF : Buffer ℚ → ℕ → ℕ → Buffer ℚ)
    (bg_im im_depth im_inv_shading im_normals : Buffer ℚ)
    (fg_im_crop fg_mask_crop fg_im_depth fg_im_inv_shading
      fg_im_normals : Buffer ℚ)
    (relScale : ℚ) (top left bgH bgW : ℕ)
    (hbg1 : bg_im.h = bgH) (hbg2 : bg_im.w = bgW)
    (hd1 : im_depth.h = bgH) (hd2 : im_depth.w = bgW)
    (hs1 : im_inv_shading.h = bgH) (hs2 : im_inv_shading.w = bgW)
    (hn1 : im_normals.h = bgH) (hn2 : im_normals.w = bgW)
    (out : StageOut)
    (hout : compositeStage resizeF bg_im im_depth im_inv_shading im_normals
      fg_im_crop fg_mask_crop fg_im_depth fg_im_inv_shading fg_im_normals
      relScale top left bgH bgW = .ok out) :
    out.top = top ∧ out.left = left
    ∧ out.comp = composite_crop bg_im (top, left)
        (fgRescaledBuf resizeF fg_im_crop fg_im_crop relScale)
        (fgRescaledBuf resizeF fg_im_crop fg_mask_crop relScale)
    ∧ out.compDepth = composite_depth im_depth (top, left)
        (fgRescaledBuf resizeF fg_im_crop fg_im_depth relScale)
        (fgRescaledBuf resizeF fg_im_crop fg_mask_crop relScale)
    ∧ out.compInvShading = composite_crop im_inv_shading (top, left)
        (fgRescaledBuf resizeF fg_im_crop fg_im_inv_shading relScale)
        (fgRescaledBuf resizeF fg_im_crop fg_mask_crop relScale)
    ∧ out.compNormals = composite_crop im_normals (top, left)
        (fgRescaledBuf resizeF fg_im_crop fg_im_normals relScale)
        (fgRescaledBuf resizeF fg_im_crop fg_mask_crop relScale)
    ∧ out.comp.h = bgH ∧ out.comp.w = bgW
    ∧ out.compDepth.h = bgH ∧ out.compDepth.w = bgW
    ∧ out.compInvShading.h = bgH ∧ out.compInvShading.w = bgW
    ∧ out.compNormals.h = bgH ∧ out.compNormals.w = bgW := by
  unfold compositeStage at hout
  split at hout
  · obtain rfl := (Except.ok.inj hout).symm
    exact ⟨rfl, rfl, rfl, rfl, rfl, rfl, hbg1, hbg2, hd1, hd2, hs1, hs2,
      hn1, hn2⟩
  · exact Except.noConfusion hout
  · exact Except.noConfusion hout

theorem compositeStage_consistent_witness :
    ∃ out,
      compositeStage idResize bg4 bg4 bg4 bg4 fg2 fg2 fg2 fg2 fg2 1 0 1 4 4
        = .ok out
      ∧ out.comp.h = 4 ∧ out.comp.w = 4
      ∧ out.compDepth.h = 4 ∧ out.compDepth.w = 4
      ∧ out.compInvShading.h = 4 ∧ out.compInvShading.w = 4
      ∧ out.compNormals.h = 4 ∧ out.compNormals.w = 4 := by
  have hd : fgScaledDims fg2.h fg2.w 1 = (2, 2) := by
    simp [fgScaledDims, pyInt, fg2]
  have hok : ∃ out,
      compositeStage idResize bg4 bg4 bg4 bg4 fg2 fg2 fg2 fg2 fg2 1 0 1 4 4
        = Except.ok out := by
    simp only [compositeStage, fgRescaledBuf, idResize, setSlice, zerosBuf,
      hd]
    norm_num
  obtain ⟨out, hout⟩ := hok
  refine ⟨out, hout, ?_⟩
  have hc := compositeStage_consistent idResize bg4 bg4 bg4 bg4 fg2 fg2 fg2
    fg2 fg2 1 0 1 4 4 rfl rfl rfl rfl rfl rfl rfl rfl out hout
  exact hc.2.2.2.2.2.2

/-- Claim C9 counterexample: an 8×8 rescaled foreground placed at
`(top, left) = (2, 0)` on a 4×4 canvas — a footprint extending past the
canvas, with source extents larger than 1 so no broadcasting applies —
makes the stage raise numpy's broadcast error at the full-canvas mask
write instead of succeeding with implicitly clamped slicing. -/
theorem compositeStage_oob_error :
    compositeStage idResize bg4 bg4 bg4 bg4 fg8 fg8 fg8 fg8 fg8 1 2 0 4 4
      = .error "could not broadcast input array" := by
  have hd : fgScaledDims fg8.h fg8.w 1 = (8, 8) := by
    simp [fgScaledDims, pyInt, fg8]
  simp only [compositeStage, fgRescaledBuf, idResize, setSlice, zerosBuf, hd]
  norm_num

/-- Claim C9 (amended): the core performs no bounds validation of its own,
but the numpy slice assignments writing the rescaled mask and depth into
the full-canvas buffers succeed exactly when, on each axis, either the
placement footprint fits inside the canvas or the rescaled source extent
is at most 1 (numpy broadcasts a size-1 or size-0 source dimension into
the clamped, possibly empty, slice, silently writing nothing past the
edge); for any other footprint extending past the canvas the slice
assignment raises a broadcast error (reads are clamped, writes are not). -/
theorem compositeStage_ok_iff (resizeF : Buffer ℚ → ℕ → ℕ → Buffer ℚ)
    (hres : ∀ b hh ww, (resizeF b hh ww).h = hh ∧ (resizeF b hh ww).w = ww)
    (bg_im im_depth im_inv_shading im_normals : Buffer ℚ)
    (fg_im_crop fg_mask_crop fg_im_depth fg_im_inv_shading
      fg_im_normals : Buffer ℚ)
    (relScale : ℚ) (top left bgH bgW : ℕ) :
    (∃ out, compositeStage resizeF bg_im im_depth im_inv_shading im_normals
      fg_im_crop fg_mask_crop fg_im_depth fg_im_inv_shading fg_im_normals
      relScale top left bgH bgW = .ok out)
    ↔ (top + (fgScaledDims fg_im_crop.h fg_im_crop.w relScale).1 ≤ bgH
        ∨ (fgScaledDims fg_im_crop.h fg_im_crop.w relScale).1 ≤ 1)
      ∧ (left + (fgScaledDims fg_im_crop.h fg_im_crop.w relScale).2 ≤ bgW
        ∨ (fgScaledDims fg_im_crop.h fg_im_crop.w relScale).2 ≤ 1) := by
  have hm := hres fg_mask_crop
    (fgScaledDims fg_im_crop.h fg_im_crop.w relScale).1
    (fgScaledDims fg_im_crop.h fg_im_crop.w relScale).2
  have hdep := hres fg_im_depth
    (fgScaledDims fg_im_crop.h fg_im_crop.w relScale).1
    (fgScaledDims fg_im_crop.h fg_im_crop.w relScale).2
  simp only [compositeStage, fgRescaledBuf, setSlice, zerosBuf, hm.1, hm.2,
    hdep.1, hdep.2]
  by_cases hc :
      (top + (fgScaledDims fg_im_crop.h fg_im_crop.w relScale).1 ≤ bgH
        ∨ (fgScaledDims fg_im_crop.h fg_im_crop.w relScale).1 ≤ 1)
      ∧ (left + (fgScaledDims fg_im_crop.h fg_im_crop.w relScale).2 ≤ bgW
        ∨ (fgScaledDims fg_im_crop.h fg_im_crop.w relScale).2 ≤ 1)
  · rw [if_pos hc, if_pos hc]
    simp [hc]
  · rw [if_neg hc, if_neg hc]
    simp [hc]

theorem compositeStage_ok_iff_witness :
    (∃ out,
      compositeStage idResize bg4 bg4 bg4 bg4 fg1 fg1 fg1 fg1 fg1 1 4 0 4 4
        = .ok out)
    ↔ (4 + (fgScaledDims fg1.h fg1.w 1).1 ≤ 4
        ∨ (fgScaledDims fg1.h fg1.w 1).1 ≤ 1)
      ∧ (0 + (fgScaledDims fg1.h fg1.w 1).2 ≤ 4
        ∨ (fgScaledDims fg1.h fg1.w 1).2 ≤ 1) :=
  compositeStage_ok_iff idResize (fun _ _ _ => ⟨rfl, rfl⟩) bg4 bg4 bg4 bg4
    fg1 fg1 fg1 fg1 fg1 1 4 0 4 4
